import Mathlib

/-!
Verification of the LionsFlute audio-processing engine
(`src/audio_processor.py`, class `AudioProcessor`) against its
natural-language specification.

Shallow embedding conventions:
* a mono sample buffer is a `List ℚ` (numpy float arrays are modelled with
  exact rationals; the stereo branches of the source apply the identical
  per-channel computation, so the claims are settled on the mono path);
* library primitives that compute transcendental values
  (`np.sin`, `np.tanh`, `np.exp`, `np.random.normal`,
  `scipy.signal.butter`/`filtfilt`) are taken as function parameters,
  because only the surrounding arithmetic of the repository's own code is
  under verification;
* Python's `int(x)` conversion (truncation toward zero) is `pyInt`;
* numpy's division of a buffer by a zero maximum produces NaN samples;
  a computation whose result would be NaN/undefined is modelled as `none`.
-/

/-- Python `int(x)` applied to a float: truncation toward zero. -/
def pyInt (x : ℚ) : ℤ := if 0 ≤ x then ⌊x⌋ else ⌈x⌉

/-- `np.max(np.abs(xs))` over a buffer; `0` on the empty buffer
(numpy raises on an empty maximum — no claim exercises that case). -/
def maxAbs (xs : List ℚ) : ℚ := xs.foldl (fun m x => max m |x|) 0

/-- The dry/wet blend every effect ends with:
`audio_data * (1 - wet_level) + processed * wet_level`, elementwise. -/
def mixLists (dry wetBuf : List ℚ) (wet_level : ℚ) : List ℚ :=
  List.zipWith (fun d w => d * (1 - wet_level) + w * wet_level) dry wetBuf

/-- `scipy.signal.convolve(a, b, mode='same')`: the centered slice of the
full convolution, with the same length as `a`. -/
def convolve_same (a b : List ℚ) : List ℚ :=
  (List.range a.length).map (fun i =>
    let k := i + (b.length - 1) / 2
    (List.range b.length).foldl
      (fun acc j => acc + (if j ≤ k ∧ k - j < a.length then a.getD (k - j) 0 else 0) * b.getD j 0)
      0)

/-- numpy slice assignment `dst[:len(src)] = src`. -/
def sliceAssign (dst src : List ℚ) : List ℚ := src ++ dst.drop src.length

/-- numpy slice addition `dst[off:off+len(src)] += src`. -/
def sliceAdd (dst : List ℚ) (off : ℕ) (src : List ℚ) : List ℚ :=
  (List.range dst.length).map (fun k =>
    dst.getD k 0 + (if off ≤ k ∧ k - off < src.length then src.getD (k - off) 0 else 0))

/-- Normalization step of `split_vocals_instruments`
(source: `vocals = vocals / np.max(np.abs(vocals)) * 0.8`, with no guard).
When the buffer's maximum absolute sample is zero, the numpy division
produces NaN samples (0/0); that undefined outcome is modelled as `none`. -/
def normalize_peak (xs : List ℚ) : Option (List ℚ) :=
  let m := maxAbs xs
  if m = 0 then none else some (xs.map (fun x => x / m * 0.8))

/-- `vocal_freq_start = int(300 * freq_bins / (sample_rate / 2))`. -/
def vocal_freq_start (freq_bins : ℕ) (sample_rate : ℚ) : ℤ :=
  pyInt (300 * freq_bins / (sample_rate / 2))

/-- `vocal_freq_end = int(3000 * freq_bins / (sample_rate / 2))`. -/
def vocal_freq_end (freq_bins : ℕ) (sample_rate : ℚ) : ℤ :=
  pyInt (3000 * freq_bins / (sample_rate / 2))

/-- A (frequency bin, time frame) grid of real weights, as built by
`np.ones_like(magnitude)` and the row-scaling loop. -/
def Grid := ℕ → ℕ → ℚ

/-- `np.ones_like(magnitude)`. -/
def onesGrid : Grid := fun _ _ => 1

/-- `mask[i, :] *= c` : scale one row of a grid. -/
def scaleRow (g : Grid) (r : ℕ) (c : ℚ) : Grid :=
  fun i j => if i = r then g i j * c else g i j

/-- One iteration of the mask-building loop of `split_vocals_instruments`:
inside the vocal band, `vocal_mask[i,:] *= 1.5; instrumental_mask[i,:] *= 0.3`;
outside it `*= 0.4` and `*= 1.2`. -/
def mask_step (s e : ℤ) (p : Grid × Grid) (i : ℕ) : Grid × Grid :=
  if s ≤ (i : ℤ) ∧ (i : ℤ) ≤ e then (scaleRow p.1 i 1.5, scaleRow p.2 i 0.3)
  else (scaleRow p.1 i 0.4, scaleRow p.2 i 1.2)

/-- The `for i in range(freq_bins)` loop building the vocal and
instrumental masks from all-ones grids. -/
def build_masks (freq_bins : ℕ) (sample_rate : ℚ) : Grid × Grid :=
  (List.range freq_bins).foldl
    (mask_step (vocal_freq_start freq_bins sample_rate) (vocal_freq_end freq_bins sample_rate))
    (onesGrid, onesGrid)

/-- `AudioProcessor.apply_reverb` on a mono buffer.  `randn k` models the
`np.random.normal(0, 1, reverb_samples)` noise sample at index `k` and
`expf` models `np.exp`; the impulse is normalized by its maximum absolute
value (for genuinely random noise that maximum is nonzero; rational
division by zero yields `0` here, a case of measure zero in the source). -/
def apply_reverb (randn : ℕ → ℚ) (expf : ℚ → ℚ) (audio : List ℚ)
    (sample_rate room_size damping wet_level : ℚ) : List ℚ :=
  let reverb_samples := (pyInt (room_size * 2.0 * sample_rate)).toNat
  let impulse := (List.range reverb_samples).map
    (fun k => randn k * expf (-(k : ℚ) / ((reverb_samples : ℚ) * damping)))
  let impulse2 := impulse.map (fun x => x / maxAbs impulse)
  mixLists audio (convolve_same audio impulse2) wet_level

/-- `AudioProcessor.apply_echo` on a mono buffer: zero buffer of length
`n + delay_samples`, `echo_audio[:n] = audio`,
`echo_audio[delay_samples:delay_samples+n] += audio * decay`, truncate
back to `n`, then the dry/wet mix.  (A negative delay would make
`np.zeros` raise in the source; `Int.toNat` clamps it to zero here and no
claim exercises that case.) -/
def apply_echo (audio : List ℚ) (sample_rate delay decay wet_level : ℚ) : List ℚ :=
  let n := audio.length
  let delay_samples := (pyInt (delay * sample_rate)).toNat
  let buf0 := List.replicate (n + delay_samples) (0 : ℚ)
  let buf1 := sliceAssign buf0 audio
  let buf2 := sliceAdd buf1 delay_samples (audio.map (fun x => x * decay))
  mixLists audio (buf2.take n) wet_level

/-- The LFO of `AudioProcessor.apply_chorus`:
`np.sin(2*np.pi*rate*time_axis) * depth * sample_rate` at sample `i`,
where `time_axis[i] = i / sample_rate`.  `sin2pi u` models
`np.sin(2*np.pi*u)` (the phase in cycles, which is exactly representable). -/
def chorus_lfo (sin2pi : ℚ → ℚ) (sample_rate rate depth : ℚ) (i : ℕ) : ℚ :=
  sin2pi (rate * ((i : ℚ) / sample_rate)) * depth * sample_rate

/-- The chorus lookup index `delay_idx = max(0, i - int(delay_mod))`.
Note the source converts the LFO value with Python `int(...)`,
i.e. truncation toward zero. -/
def chorus_idx (sin2pi : ℚ → ℚ) (sample_rate rate depth : ℚ) (i : ℕ) : ℤ :=
  max 0 ((i : ℤ) - pyInt (chorus_lfo sin2pi sample_rate rate depth i))

/-- One wet sample of the chorus: the dry sample at `delay_idx` if
`delay_idx < len(audio_data)`, otherwise the zero the output buffer was
initialized with. -/
def chorus_wet_sample (sin2pi : ℚ → ℚ) (audio : List ℚ)
    (sample_rate rate depth : ℚ) (i : ℕ) : ℚ :=
  if chorus_idx sin2pi sample_rate rate depth i < (audio.length : ℤ)
  then audio.getD (chorus_idx sin2pi sample_rate rate depth i).toNat 0 else 0

/-- The `for i, delay_mod in enumerate(lfo)` loop of `apply_chorus`,
filling `chorus_audio = np.zeros_like(audio_data)` sample by sample. -/
def chorus_fill (sin2pi : ℚ → ℚ) (audio : List ℚ)
    (sample_rate rate depth : ℚ) : List ℚ :=
  (List.range audio.length).foldl
    (fun (buf : List ℚ) (i : ℕ) =>
      if chorus_idx sin2pi sample_rate rate depth i < (audio.length : ℤ)
      then buf.set i (audio.getD (chorus_idx sin2pi sample_rate rate depth i).toNat 0)
      else buf)
    (List.replicate audio.length (0 : ℚ))

/-- `AudioProcessor.apply_chorus` on a mono buffer. -/
def apply_chorus (sin2pi : ℚ → ℚ) (audio : List ℚ)
    (sample_rate rate depth wet_level : ℚ) : List ℚ :=
  mixLists audio (chorus_fill sin2pi audio sample_rate rate depth) wet_level

/-- `AudioProcessor.apply_distortion`: gain, `np.tanh` soft clipping
(`tanhf` models `np.tanh`), dry/wet mix. -/
def apply_distortion (tanhf : ℚ → ℚ) (audio : List ℚ)
    (gain wet_level : ℚ) : List ℚ :=
  mixLists audio ((audio.map (fun x => x * gain)).map tanhf) wet_level

/-- The `compressed = np.copy(audio_data)` buffer after the masked
assignment `compressed[mask] = threshold + (audio_data[mask] - threshold) / ratio`
with `mask = np.abs(audio_data) > threshold`. -/
def compress_samples (audio : List ℚ) (threshold cratio : ℚ) : List ℚ :=
  audio.map (fun x => if threshold < |x| then threshold + (x - threshold) / cratio else x)

/-- `AudioProcessor.apply_compressor` on a mono buffer. -/
def apply_compressor (audio : List ℚ) (threshold cratio wet_level : ℚ) : List ℚ :=
  mixLists audio (compress_samples audio threshold cratio) wet_level

/-- `AudioProcessor.apply_equalizer` on a mono buffer.
`filt b c1 c2 xs` models `scipy.signal.filtfilt` with the order-4
Butterworth design `signal.butter(4, ...)`: `b = 0` the low-pass at
normalized cutoff `c1`, `b = 1` the band-pass on `[c1, c2]`, `b = 2` the
high-pass at `c1`.  The cutoff arithmetic (`nyquist = sample_rate / 2`,
`low_cutoff = 300 / nyquist`, `high_cutoff = 3000 / nyquist`) is the
repository's own code and is embedded here. -/
def apply_equalizer (filt : ℕ → ℚ → ℚ → List ℚ → List ℚ) (audio : List ℚ)
    (sample_rate low_gain mid_gain high_gain wet_level : ℚ) : List ℚ :=
  let nyquist := sample_rate / 2
  let low_cutoff := 300 / nyquist
  let high_cutoff := 3000 / nyquist
  let low_band := (filt 0 low_cutoff low_cutoff audio).map (fun x => x * low_gain)
  let mid_band := (filt 1 low_cutoff high_cutoff audio).map (fun x => x * mid_gain)
  let high_band := (filt 2 high_cutoff high_cutoff audio).map (fun x => x * high_gain)
  let eq_audio := List.zipWith (· + ·) (List.zipWith (· + ·) low_band mid_band) high_band
  mixLists audio eq_audio wet_level

/-- Python `str.lower()` (the effect names are ASCII, where
`Char.toLower` agrees with Python). -/
def lowerString (s : String) : String := String.mk (s.data.map Char.toLower)

/-- `os.path.splitext(filename)[0]`: everything before the last dot,
provided some earlier character is not a dot (so a pure leading-dot name
keeps its dot, as in CPython); otherwise the whole name. -/
def splitext_stem (s : String) : String :=
  let cs := s.data
  let idxs := (List.range cs.length).filter
    (fun i => (cs.getD i ' ' == '.') && (List.range i).any (fun j => cs.getD j ' ' != '.'))
  match idxs.getLast? with
  | some i => String.mk (cs.take i)
  | none => s

/-- The parameter tuple with which `apply_effect` invokes one of the
effect transforms.  Fields not passed at the call site carry the callee's
Python default (`apply_reverb damping=0.5`, `apply_echo decay=0.5`,
`apply_chorus depth=0.002`, `apply_compressor ratio=4.0`). -/
inductive EffectCall where
  | reverb (room_size damping wet_level : ℚ)
  | echo (delay decay wet_level : ℚ)
  | chorus (rate depth wet_level : ℚ)
  | distortion (gain wet_level : ℚ)
  | compressor (threshold cratio wet_level : ℚ)
  | equalizer (low_gain mid_gain high_gain wet_level : ℚ)
deriving DecidableEq

/-- Error kinds of the dispatcher.  The source raises
`ValueError(f"Unknown effect: {effect_name}")` for an unrecognized name —
the spec's `UnsupportedEffect` kind.  `invalidParameter` is the spec's
`InvalidParameter` kind; the source never raises it. -/
inductive DispatchError where
  | unsupportedEffect (name : String)
  | invalidParameter
deriving DecidableEq

/-- The seven effect names `apply_effect` recognizes (after lowercasing). -/
def recognized : List String :=
  ["reverb", "echo", "chorus", "distortion", "compressor", "equalizer", "delay"]

/-- The name/intensity → parameters dispatch of `AudioProcessor.apply_effect`
(lines 329–382): `intensity_normalized = intensity / 100.0`, then the
if/elif chain on `effect_name.lower()`.  No validation of `intensity` is
performed anywhere in the source. -/
def dispatch (effect_name : String) (intensity : ℚ) : Except DispatchError EffectCall :=
  let i := intensity / 100.0
  if lowerString effect_name = "reverb" then
    .ok (.reverb i 0.5 (i * 0.5))
  else if lowerString effect_name = "echo" then
    .ok (.echo (0.2 + i * 0.5) 0.5 (i * 0.6))
  else if lowerString effect_name = "chorus" then
    .ok (.chorus (1.0 + i * 2.0) 0.002 (i * 0.7))
  else if lowerString effect_name = "distortion" then
    .ok (.distortion (1.0 + i * 4.0) i)
  else if lowerString effect_name = "compressor" then
    .ok (.compressor (0.8 - i * 0.5) 4.0 i)
  else if lowerString effect_name = "equalizer" then
    .ok (.equalizer (0.5 + i) (1.0 + (i - 0.5) * 0.5) (0.7 + i * 0.6) i)
  else if lowerString effect_name = "delay" then
    .ok (.echo (0.5 + i * 1.0) (0.3 + i * 0.4) (i * 0.5))
  else
    .error (.unsupportedEffect effect_name)

/-- `true` on the success constructor of `Except`. -/
def exceptOk {ε α : Type} : Except ε α → Bool
  | .ok _ => true
  | .error _ => false

/-- The filename-visible outcome of `AudioProcessor.apply_effect`: on a
recognized effect the processed buffer is computed and then saved under
`f"{base_name}_{effect_name}_{int(intensity)}.wav"` (lines 384–389;
`save_audio` runs only on this success path), on an unknown name the
`ValueError` propagates before any file is written. -/
def apply_effect_result (filename effect_name : String) (intensity : ℚ) :
    Except DispatchError String :=
  match dispatch effect_name intensity with
  | .ok _ =>
    .ok (splitext_stem filename ++ "_" ++ effect_name ++ "_" ++ toString (pyInt intensity) ++ ".wav")
  | .error e => .error e

/-- A heap of numpy arrays, for the frame/aliasing claims: addresses are
list positions, allocation appends. -/
abbrev Heap := List (List ℚ)

/-- Allocate a fresh array; returns the new heap and the fresh address. -/
def halloc (h : Heap) (buf : List ℚ) : Heap × ℕ := (h ++ [buf], h.length)

/-- Read the array at an address (empty for a dangling address). -/
def hget : Heap → ℕ → List ℚ
  | [], _ => []
  | b :: _, 0 => b
  | _ :: t, n + 1 => hget t n

/-- Overwrite the array at an address (in-place numpy mutation). -/
def hset : Heap → ℕ → List ℚ → Heap
  | [], _, _ => []
  | _ :: t, 0, v => v :: t
  | b :: t, n + 1, v => b :: hset t n v

/-- Heap-level `apply_reverb`: the impulse, its normalized copy and the
convolution output are fresh allocations; the input array is never
written. -/
def run_reverb (randn : ℕ → ℚ) (expf : ℚ → ℚ) (h : Heap) (a : ℕ)
    (sample_rate room_size damping wet_level : ℚ) : Heap × ℕ :=
  let audio := hget h a
  let reverb_samples := (pyInt (room_size * 2.0 * sample_rate)).toNat
  let p1 := halloc h ((List.range reverb_samples).map
    (fun k => randn k * expf (-(k : ℚ) / ((reverb_samples : ℚ) * damping))))
  let p2 := halloc p1.1 ((hget p1.1 p1.2).map (fun x => x / maxAbs (hget p1.1 p1.2)))
  let p3 := halloc p2.1 (convolve_same audio (hget p2.1 p2.2))
  halloc p3.1 (mixLists audio (hget p3.1 p3.2) wet_level)

/-- Heap-level `apply_echo`: the temporary padded buffer receives both
slice writes; the input array is never written. -/
def run_echo (h : Heap) (a : ℕ) (sample_rate delay decay wet_level : ℚ) : Heap × ℕ :=
  let audio := hget h a
  let n := audio.length
  let delay_samples := (pyInt (delay * sample_rate)).toNat
  let p1 := halloc h (List.replicate (n + delay_samples) (0 : ℚ))
  let h2 := hset p1.1 p1.2 (sliceAssign (hget p1.1 p1.2) audio)
  let h3 := hset h2 p1.2 (sliceAdd (hget h2 p1.2) delay_samples (audio.map (fun x => x * decay)))
  halloc h3 (mixLists audio ((hget h3 p1.2).take n) wet_level)

/-- Heap-level `apply_chorus`: `chorus_audio = np.zeros_like(...)` is a
fresh allocation whose cells the loop overwrites; the input array is
never written. -/
def run_chorus (sin2pi : ℚ → ℚ) (h : Heap) (a : ℕ)
    (sample_rate rate depth wet_level : ℚ) : Heap × ℕ :=
  let audio := hget h a
  let p1 := halloc h (List.replicate audio.length (0 : ℚ))
  let h2 := hset p1.1 p1.2 (chorus_fill sin2pi audio sample_rate rate depth)
  halloc h2 (mixLists audio (hget h2 p1.2) wet_level)

/-- Heap-level `apply_distortion`: `audio_data * gain` and
`np.tanh(gained_audio)` are fresh allocations; the input array is never
written. -/
def run_distortion (tanhf : ℚ → ℚ) (h : Heap) (a : ℕ)
    (gain wet_level : ℚ) : Heap × ℕ :=
  let audio := hget h a
  let p1 := halloc h (audio.map (fun x => x * gain))
  let p2 := halloc p1.1 ((hget p1.1 p1.2).map tanhf)
  halloc p2.1 (mixLists audio (hget p2.1 p2.2) wet_level)

/-- Heap-level `apply_compressor`: `compressed = np.copy(audio_data)` is
a fresh allocation and the masked assignment writes that copy; the input
array is never written. -/
def run_compressor (h : Heap) (a : ℕ) (threshold cratio wet_level : ℚ) : Heap × ℕ :=
  let audio := hget h a
  let p1 := halloc h audio
  let h2 := hset p1.1 p1.2 (compress_samples audio threshold cratio)
  halloc h2 (mixLists audio (hget h2 p1.2) wet_level)

/-- Heap-level `apply_equalizer`: the three filtered bands, their sum and
the mix are fresh allocations; the input array is never written. -/
def run_equalizer (filt : ℕ → ℚ → ℚ → List ℚ → List ℚ) (h : Heap) (a : ℕ)
    (sample_rate low_gain mid_gain high_gain wet_level : ℚ) : Heap × ℕ :=
  let audio := hget h a
  let nyquist := sample_rate / 2
  let low_cutoff := 300 / nyquist
  let high_cutoff := 3000 / nyquist
  let p1 := halloc h ((filt 0 low_cutoff low_cutoff audio).map (fun x => x * low_gain))
  let p2 := halloc p1.1 ((filt 1 low_cutoff high_cutoff audio).map (fun x => x * mid_gain))
  let p3 := halloc p2.1 ((filt 2 high_cutoff high_cutoff audio).map (fun x => x * high_gain))
  let p4 := halloc p3.1 (List.zipWith (· + ·)
    (List.zipWith (· + ·) (hget p3.1 p1.2) (hget p3.1 p2.2)) (hget p3.1 p3.2))
  halloc p4.1 (mixLists audio (hget p4.1 p4.2) wet_level)

/-- Concrete stand-in for `np.sin(2*np.pi*·)` used by the chorus
counterexample: at the probed phase of 5/4 cycles the true sine is
exactly `sin(5*pi/2) = 1`. -/
def sinProbe (u : ℚ) : ℚ := if u = 5 / 4 then 1 else 0

/-- At a blend level of zero the dry/wet mix returns the dry buffer,
provided the wet buffer is at least as long. -/
theorem mixLists_zero (dry wetBuf : List ℚ) (h : dry.length ≤ wetBuf.length) :
    mixLists dry wetBuf 0 = dry := by
  induction dry generalizing wetBuf with
  | nil => simp [mixLists]
  | cons d ds ih =>
    cases wetBuf with
    | nil => simp at h
    | cons w ws =>
      have hh : ds.length ≤ ws.length := by simpa using h
      have hd : d * (1 - 0) + w * 0 = d := by ring
      simp only [mixLists, List.zipWith_cons_cons]
      rw [hd]
      exact congrArg (d :: ·) (ih ws hh)

/-- The dry/wet mix, sample by sample. -/
theorem mixLists_getD (dry wetBuf : List ℚ) (w : ℚ) (i : ℕ)
    (h1 : i < dry.length) (h2 : i < wetBuf.length) :
    (mixLists dry wetBuf w).getD i 0 = dry.getD i 0 * (1 - w) + wetBuf.getD i 0 * w := by
  have hz : i < (mixLists dry wetBuf w).length := by
    simp only [mixLists, List.length_zipWith, lt_min_iff]
    exact ⟨h1, h2⟩
  rw [List.getD_eq_getElem _ _ hz, List.getD_eq_getElem _ _ h1, List.getD_eq_getElem _ _ h2]
  exact List.getElem_zipWith

/-- A same-mode convolution has the length of its first argument. -/
theorem convolve_same_length (a b : List ℚ) : (convolve_same a b).length = a.length := by
  simp [convolve_same]

theorem sliceAssign_length (dst src : List ℚ) :
    (sliceAssign dst src).length = src.length + (dst.length - src.length) := by
  simp [sliceAssign]

theorem sliceAdd_length (dst : List ℚ) (off : ℕ) (src : List ℚ) :
    (sliceAdd dst off src).length = dst.length := by
  simp [sliceAdd]

/-- A fold over `List.range` whose step conditionally overwrites the cell
of its loop index preserves the buffer length. -/
theorem range_foldl_set_length (c : ℕ → Prop) [DecidablePred c] (g : ℕ → ℚ)
    (k : ℕ) (init : List ℚ) :
    ((List.range k).foldl (fun buf i => if c i then buf.set i (g i) else buf) init).length
      = init.length := by
  induction k with
  | zero => rfl
  | succ k ih =>
    rw [List.range_succ, List.foldl_append, List.foldl_cons, List.foldl_nil]
    by_cases hc : c k
    · rw [if_pos hc, List.length_set, ih]
    · rw [if_neg hc, ih]

/-- Closed form of a fold over `List.range` that conditionally overwrites
the cell of its loop index: position `i` holds `g i` once the loop has
passed it (and `c i` held), and the initial value otherwise. -/
theorem range_foldl_set_getD (c : ℕ → Prop) [DecidablePred c] (g : ℕ → ℚ)
    (k : ℕ) (init : List ℚ) (i : ℕ) (hi : i < init.length) :
    ((List.range k).foldl (fun buf i => if c i then buf.set i (g i) else buf) init).getD i 0
      = if i < k ∧ c i then g i else init.getD i 0 := by
  induction k with
  | zero =>
    simp
  | succ k ih =>
    rw [List.range_succ, List.foldl_append, List.foldl_cons, List.foldl_nil]
    have hstep :
        ∀ L : List ℚ, L.length = init.length →
          L.getD i 0 = (if i < k ∧ c i then g i else init.getD i 0) →
          (if c k then L.set k (g k) else L).getD i 0
            = if i < k + 1 ∧ c i then g i else init.getD i 0 := by
      intro L hLlen hLi
      by_cases hck : c k
      · rw [if_pos hck]
        rcases eq_or_ne k i with rfl | hki
        · rw [List.getD_eq_getElem?_getD, List.getElem?_set, if_pos rfl,
            if_pos (hLlen ▸ hi), Option.getD_some, if_pos ⟨Nat.lt_succ_self k, hck⟩]
        · rw [List.getD_eq_getElem?_getD, List.getElem?_set_ne hki,
            ← List.getD_eq_getElem?_getD, hLi]
          by_cases hik : i < k ∧ c i
          · rw [if_pos hik, if_pos ⟨Nat.lt_succ_of_lt hik.1, hik.2⟩]
          · rw [if_neg hik, if_neg (fun hcon => hik
              ⟨lt_of_le_of_ne (Nat.lt_succ_iff.mp hcon.1) (Ne.symm hki), hcon.2⟩)]
      · rw [if_neg hck, hLi]
        by_cases hik : i < k ∧ c i
        · rw [if_pos hik, if_pos ⟨Nat.lt_succ_of_lt hik.1, hik.2⟩]
        · rw [if_neg hik, if_neg ?_]
          intro hcon
          rcases Nat.lt_succ_iff_lt_or_eq.mp hcon.1 with hlt | rfl
          · exact hik ⟨hlt, hcon.2⟩
          · exact hck hcon.2
    exact hstep _ (range_foldl_set_length c g k init) ih

/-- The chorus fill loop preserves the buffer length. -/
theorem chorus_fill_length (sin2pi : ℚ → ℚ) (audio : List ℚ)
    (sample_rate rate depth : ℚ) :
    (chorus_fill sin2pi audio sample_rate rate depth).length = audio.length := by
  unfold chorus_fill
  rw [range_foldl_set_length
    (fun i => chorus_idx sin2pi sample_rate rate depth i < (audio.length : ℤ))
    (fun i => audio.getD (chorus_idx sin2pi sample_rate rate depth i).toNat 0)]
  exact List.length_replicate _ _

/-- Sample `i` of the filled chorus buffer is the wet sample of the
source loop. -/
theorem chorus_fill_getD (sin2pi : ℚ → ℚ) (audio : List ℚ)
    (sample_rate rate depth : ℚ) (i : ℕ) (hi : i < audio.length) :
    (chorus_fill sin2pi audio sample_rate rate depth).getD i 0
      = chorus_wet_sample sin2pi audio sample_rate rate depth i := by
  unfold chorus_fill chorus_wet_sample
  rw [range_foldl_set_getD
    (fun i => chorus_idx sin2pi sample_rate rate depth i < (audio.length : ℤ))
    (fun i => audio.getD (chorus_idx sin2pi sample_rate rate depth i).toNat 0)
    audio.length (List.replicate audio.length 0) i (by simpa using hi)]
  by_cases hc : chorus_idx sin2pi sample_rate rate depth i < (audio.length : ℤ)
  · rw [if_pos ⟨hi, hc⟩, if_pos hc]
  · rw [if_neg (fun hcon => hc hcon.2), if_neg hc,
      List.getD_eq_getElem?_getD, List.getElem?_replicate, if_pos hi, Option.getD_some]

/-- Sample `i` of the chorus output, before specializing the wet sample. -/
theorem apply_chorus_getD (sin2pi : ℚ → ℚ) (audio : List ℚ)
    (sample_rate rate depth wet_level : ℚ) (i : ℕ) (hi : i < audio.length) :
    (apply_chorus sin2pi audio sample_rate rate depth wet_level).getD i 0
      = audio.getD i 0 * (1 - wet_level)
        + chorus_wet_sample sin2pi audio sample_rate rate depth i * wet_level := by
  unfold apply_chorus
  rw [mixLists_getD audio _ wet_level i hi
    (by rw [chorus_fill_length]; exact hi),
    chorus_fill_getD sin2pi audio sample_rate rate depth i hi]

/-- One mask-building iteration, read off at a cell of the vocal mask:
row `r` is scaled by its band factor, other rows are untouched. -/
theorem mask_step_fst (s e : ℤ) (p : Grid × Grid) (r i j : ℕ) :
    (mask_step s e p r).1 i j
      = if i = r then p.1 i j * (if s ≤ (r : ℤ) ∧ (r : ℤ) ≤ e then 1.5 else 0.4)
        else p.1 i j := by
  unfold mask_step scaleRow
  by_cases hb : s ≤ (r : ℤ) ∧ (r : ℤ) ≤ e <;> by_cases hir : i = r <;> simp [hb, hir]

/-- One mask-building iteration, read off at a cell of the instrumental
mask. -/
theorem mask_step_snd (s e : ℤ) (p : Grid × Grid) (r i j : ℕ) :
    (mask_step s e p r).2 i j
      = if i = r then p.2 i j * (if s ≤ (r : ℤ) ∧ (r : ℤ) ≤ e then 0.3 else 1.2)
        else p.2 i j := by
  unfold mask_step scaleRow
  by_cases hb : s ≤ (r : ℤ) ∧ (r : ℤ) ≤ e <;> by_cases hir : i = r <;> simp [hb, hir]

/-- Rows the mask-building loop has not reached yet still hold the
all-ones initialization. -/
theorem masks_foldl_untouched (s e : ℤ) (n i j : ℕ) (hi : n ≤ i) :
    ((List.range n).foldl (mask_step s e) (onesGrid, onesGrid)).1 i j = 1 ∧
    ((List.range n).foldl (mask_step s e) (onesGrid, onesGrid)).2 i j = 1 := by
  induction n with
  | zero => exact ⟨rfl, rfl⟩
  | succ n ih =>
    have hni : n ≤ i := Nat.le_of_succ_le hi
    have hne : i ≠ n := by omega
    rw [List.range_succ, List.foldl_append, List.foldl_cons, List.foldl_nil]
    constructor
    · rw [mask_step_fst, if_neg hne]; exact (ih hni).1
    · rw [mask_step_snd, if_neg hne]; exact (ih hni).2

/-- Closed form of the mask-building loop: once the loop has passed row
`i`, the vocal mask holds 1.5 inside the vocal band and 0.4 outside, and
the instrumental mask 0.3 inside and 1.2 outside. -/
theorem masks_foldl_getD (s e : ℤ) (n i j : ℕ) (hi : i < n) :
    ((List.range n).foldl (mask_step s e) (onesGrid, onesGrid)).1 i j
        = (if s ≤ (i : ℤ) ∧ (i : ℤ) ≤ e then 1.5 else 0.4) ∧
    ((List.range n).foldl (mask_step s e) (onesGrid, onesGrid)).2 i j
        = (if s ≤ (i : ℤ) ∧ (i : ℤ) ≤ e then 0.3 else 1.2) := by
  induction n with
  | zero => omega
  | succ n ih =>
    rw [List.range_succ, List.foldl_append, List.foldl_cons, List.foldl_nil]
    rcases eq_or_ne i n with rfl | hne
    · have h1 := masks_foldl_untouched s e i i j (le_refl i)
      constructor
      · rw [mask_step_fst, if_pos rfl, h1.1, one_mul]
      · rw [mask_step_snd, if_pos rfl, h1.2, one_mul]
    · have hin : i < n := by omega
      constructor
      · rw [mask_step_fst, if_neg hne]; exact (ih hin).1
      · rw [mask_step_snd, if_neg hne]; exact (ih hin).2

/-- C1: the peak-normalization step of `split_vocals_instruments` is NOT
guarded against a silent buffer.  On an all-zero buffer the source
divides by `np.max(np.abs(vocals)) = 0`, producing NaN samples rather
than returning the buffer unchanged: the embedded step yields the
undefined outcome `none`, not `some [0, 0, 0]`. -/
theorem C1_unguarded_silent_normalization :
    normalize_peak [0, 0, 0] = none ∧ normalize_peak [0, 0, 0] ≠ some [0, 0, 0] := by
  have hm : maxAbs ([0, 0, 0] : List ℚ) = 0 := by simp [maxAbs]
  exact ⟨by simp [normalize_peak, hm], by simp [normalize_peak, hm]⟩

/-- C3: `apply_effect` normalizes the intensity to `intensity / 100` and
derives the per-effect parameters exactly per the contract table; in
particular `"echo"` at intensity 50 yields `delay = 0.45` and
`wet_level = 0.3`, and each of the seven recognized rows follows its
table formula at every intensity. -/
theorem C3_dispatch_table (intensity : ℚ) :
    dispatch "echo" 50 = Except.ok (EffectCall.echo 0.45 0.5 0.3) ∧
    dispatch "reverb" intensity
      = Except.ok (EffectCall.reverb (intensity / 100.0) 0.5 (intensity / 100.0 * 0.5)) ∧
    dispatch "echo" intensity
      = Except.ok (EffectCall.echo (0.2 + intensity / 100.0 * 0.5) 0.5 (intensity / 100.0 * 0.6)) ∧
    dispatch "chorus" intensity
      = Except.ok (EffectCall.chorus (1.0 + intensity / 100.0 * 2.0) 0.002 (intensity / 100.0 * 0.7)) ∧
    dispatch "distortion" intensity
      = Except.ok (EffectCall.distortion (1.0 + intensity / 100.0 * 4.0) (intensity / 100.0)) ∧
    dispatch "compressor" intensity
      = Except.ok (EffectCall.compressor (0.8 - intensity / 100.0 * 0.5) 4.0 (intensity / 100.0)) ∧
    dispatch "equalizer" intensity
      = Except.ok (EffectCall.equalizer (0.5 + intensity / 100.0)
          (1.0 + (intensity / 100.0 - 0.5) * 0.5) (0.7 + intensity / 100.0 * 0.6)
          (intensity / 100.0)) ∧
    dispatch "delay" intensity
      = Except.ok (EffectCall.echo (0.5 + intensity / 100.0 * 1.0) (0.3 + intensity / 100.0 * 0.4)
          (intensity / 100.0 * 0.5)) := by
  refine ⟨?_, rfl, rfl, rfl, rfl, rfl, rfl, rfl⟩
  rw [show dispatch "echo" 50
      = Except.ok (EffectCall.echo (0.2 + (50 : ℚ) / 100.0 * 0.5) 0.5 ((50 : ℚ) / 100.0 * 0.6))
      from rfl]
  norm_num [Except.ok.injEq, EffectCall.echo.injEq]

/-- C4 counterexample: the claim says every negative intensity is
rejected with `InvalidParameter`, but at intensity −50 the dispatcher
proceeds and invokes the echo transform with the negatively scaled
parameters (`delay = −0.05`, `wet_level = −0.3`). -/
theorem C4_counterexample :
    dispatch "echo" (-50) = Except.ok (EffectCall.echo (-0.05) 0.5 (-0.3)) ∧
    dispatch "echo" (-50) ≠ Except.error DispatchError.invalidParameter := by
  have hd : dispatch "echo" (-50)
      = Except.ok (EffectCall.echo (0.2 + (-50 : ℚ) / 100.0 * 0.5) 0.5 ((-50 : ℚ) / 100.0 * 0.6)) :=
    rfl
  constructor
  · rw [hd]
    norm_num [Except.ok.injEq, EffectCall.echo.injEq]
  · rw [hd]
    exact fun hcon => Except.noConfusion hcon

/-- C4 (amended): `apply_effect` performs no validation of the intensity
at all — for every recognized effect name the dispatch succeeds at every
intensity, including all negative ones; no `InvalidParameter` failure
exists in the code. -/
theorem C4_no_intensity_validation (effect_name : String) (intensity : ℚ)
    (h : lowerString effect_name ∈ recognized) :
    exceptOk (dispatch effect_name intensity) = true := by
  simp only [recognized, List.mem_cons, List.not_mem_nil, or_false] at h
  unfold dispatch
  rcases h with h | h | h | h | h | h | h <;> rw [h] <;> rfl

/-- C4 witness: the amended theorem evaluated at `"echo"` and −50. -/
theorem C4_no_intensity_validation_witness :
    lowerString "echo" ∈ recognized ∧ exceptOk (dispatch "echo" (-50)) = true :=
  ⟨by decide, C4_no_intensity_validation "echo" (-50) (by decide)⟩

/-- C5: any effect name whose lowercasing is not among the seven
recognized names makes `apply_effect` fail with the unsupported-effect
error (the source's `ValueError`), and the failure happens before the
output-filename/save step, so no output file is produced. -/
theorem C5_unknown_effect (filename effect_name : String) (intensity : ℚ)
    (h : lowerString effect_name ∉ recognized) :
    apply_effect_result filename effect_name intensity
      = Except.error (DispatchError.unsupportedEffect effect_name) := by
  simp only [recognized, List.mem_cons, List.not_mem_nil, or_false, not_or] at h
  obtain ⟨h1, h2, h3, h4, h5, h6, h7⟩ := h
  unfold apply_effect_result dispatch
  rw [if_neg h1, if_neg h2, if_neg h3, if_neg h4, if_neg h5, if_neg h6, if_neg h7]

/-- C5 witness: the scenario of the spec, `"flanger"`. -/
theorem C5_unknown_effect_witness :
    lowerString "flanger" ∉ recognized ∧
    apply_effect_result "song.wav" "flanger" 50
      = Except.error (DispatchError.unsupportedEffect "flanger") :=
  ⟨by decide, C5_unknown_effect "song.wav" "flanger" 50 (by decide)⟩

/-- C7 counterexample: the claim maps 300 Hz to a bin index by rounding,
but the source uses Python `int(...)`.  At `sample_rate = 44100` and
`freq_bins = 1025` (the `n_fft = 2048` grid) the code's lower band
boundary is `int(13.945...) = 13` while rounding gives 14. -/
theorem C7_counterexample :
    vocal_freq_start 1025 44100 = 13 ∧
    round ((300 * 1025 : ℚ) / (44100 / 2)) = 14 ∧ (13 : ℤ) ≠ 14 := by
  refine ⟨?_, ?_, by decide⟩
  · norm_num [vocal_freq_start, pyInt]
  · norm_num [round_eq]

/-- C7 (amended): the vocal band boundaries are the bin indices
`int(freqHz * totalBins / (sampleRate/2))` — truncation, not rounding —
and inside `[start, end]` (inclusive) the masks built by the loop hold
vocal ×1.5 / instrumental ×0.3, outside vocal ×0.4 / instrumental ×1.2. -/
theorem C7_truncated_band_masks (freq_bins : ℕ) (sample_rate : ℚ) (i j : ℕ)
    (hi : i < freq_bins) :
    (build_masks freq_bins sample_rate).1 i j
        = (if vocal_freq_start freq_bins sample_rate ≤ (i : ℤ) ∧
              (i : ℤ) ≤ vocal_freq_end freq_bins sample_rate then 1.5 else 0.4) ∧
    (build_masks freq_bins sample_rate).2 i j
        = (if vocal_freq_start freq_bins sample_rate ≤ (i : ℤ) ∧
              (i : ℤ) ≤ vocal_freq_end freq_bins sample_rate then 0.3 else 1.2) ∧
    vocal_freq_start freq_bins sample_rate = pyInt (300 * freq_bins / (sample_rate / 2)) ∧
    vocal_freq_end freq_bins sample_rate = pyInt (3000 * freq_bins / (sample_rate / 2)) := by
  unfold build_masks
  exact ⟨(masks_foldl_getD _ _ freq_bins i j hi).1,
         (masks_foldl_getD _ _ freq_bins i j hi).2, rfl, rfl⟩

/-- C7 witness: 5 bins at 2000 Hz put bin 2 inside the band
(`start = int(1.5) = 1`, `end = int(15) = 15`), so its mask cells are
1.5 and 0.3. -/
theorem C7_truncated_band_masks_witness :
    2 < 5 ∧ (build_masks 5 2000).1 2 0 = 1.5 ∧ (build_masks 5 2000).2 2 0 = 0.3 := by
  have h := C7_truncated_band_masks 5 2000 2 0 (by decide)
  rw [show vocal_freq_start 5 2000 = 1 by norm_num [vocal_freq_start, pyInt],
      show vocal_freq_end 5 2000 = 15 by norm_num [vocal_freq_end, pyInt]] at h
  refine ⟨by decide, ?_, ?_⟩
  · rw [h.1, if_pos (by constructor <;> decide)]
  · rw [h.2.1, if_pos (by constructor <;> decide)]

/-- C9: parameters the dispatcher does not derive from the intensity are
the callees' fixed Python defaults, at every intensity: echo is always
invoked with `decay = 0.5`, chorus with `depth = 0.002`, reverb with
`damping = 0.5`, and compressor with `ratio = 4.0`. -/
theorem C9_fixed_defaults (intensity : ℚ) :
    (∃ delay wet_level, dispatch "echo" intensity
        = Except.ok (EffectCall.echo delay 0.5 wet_level)) ∧
    (∃ rate wet_level, dispatch "chorus" intensity
        = Except.ok (EffectCall.chorus rate 0.002 wet_level)) ∧
    (∃ room_size wet_level, dispatch "reverb" intensity
        = Except.ok (EffectCall.reverb room_size 0.5 wet_level)) ∧
    (∃ threshold wet_level, dispatch "compressor" intensity
        = Except.ok (EffectCall.compressor threshold 4.0 wet_level)) :=
  ⟨⟨_, _, rfl⟩, ⟨_, _, rfl⟩, ⟨_, _, rfl⟩, ⟨_, _, rfl⟩⟩

/-- C6 counterexample: the claim reads the dry sample at
`max(0, i - round(lfo[i]))`, but the source truncates with `int(...)`.
With a sine stand-in that is exactly 1 at the probed phase (5/4 cycles,
where `sin(2*pi*5/4 cycles) = sin(5*pi/2) = 1`), `lfo[5] = 2.7`; the code
reads index `5 - int(2.7) = 3` (sample 2) while the claim prescribes
index `5 - round(2.7) = 2` (sample 1). -/
theorem C6_round_vs_trunc_counterexample :
    (apply_chorus sinProbe [0, 0, 1, 2, 0, 0, 0, 0] 4 1 (27/40) 1).getD 5 0 = 2 ∧
    ([0, 0, 1, 2, 0, 0, 0, 0] : List ℚ).getD
        (max 0 ((5 : ℤ) - round (chorus_lfo sinProbe 4 1 (27/40) 5))).toNat 0 = 1 ∧
    (2 : ℚ) ≠ 1 := by
  have hlfo : chorus_lfo sinProbe 4 1 (27/40) 5 = 27/10 := by
    unfold chorus_lfo sinProbe
    norm_num
  have hlen : (5 : ℕ) < ([0, 0, 1, 2, 0, 0, 0, 0] : List ℚ).length := by decide
  have hidx : chorus_idx sinProbe 4 1 (27/40) 5 = 3 := by
    unfold chorus_idx
    rw [hlfo, show pyInt ((27 : ℚ)/10) = 2 by norm_num [pyInt]]
    decide
  have hwet : chorus_wet_sample sinProbe [0, 0, 1, 2, 0, 0, 0, 0] 4 1 (27/40) 5 = 2 := by
    unfold chorus_wet_sample
    rw [hidx, if_pos (by decide)]
    rfl
  refine ⟨?_, ?_, by norm_num⟩
  · rw [apply_chorus_getD sinProbe _ 4 1 (27/40) 1 5 hlen, hwet,
      show ([0, 0, 1, 2, 0, 0, 0, 0] : List ℚ).getD 5 0 = 0 from rfl]
    norm_num
  · rw [hlfo, show round ((27 : ℚ)/10) = 3 by norm_num [round_eq],
      show max 0 ((5 : ℤ) - 3) = 2 by decide]
    rfl

/-- C6 (amended): for each in-range output index `i`, the chorus output
is the dry/wet blend whose wet part reads the dry sample at
`max(0, i - int(lfo[i]))` — truncation toward zero, not rounding — with
`lfo[i] = sin(2*pi*rate*i/sampleRate) * depthSeconds * sampleRate`, and a
wet sample of 0 when that index falls beyond the buffer. -/
theorem C6_truncated_chorus_lookup (sin2pi : ℚ → ℚ) (audio : List ℚ)
    (sample_rate rate depth wet_level : ℚ) (i : ℕ) (hi : i < audio.length) :
    (apply_chorus sin2pi audio sample_rate rate depth wet_level).getD i 0
      = audio.getD i 0 * (1 - wet_level)
        + (if max 0 ((i : ℤ)
                - pyInt (sin2pi (rate * ((i : ℚ) / sample_rate)) * depth * sample_rate))
              < (audio.length : ℤ)
           then audio.getD
             (max 0 ((i : ℤ)
                - pyInt (sin2pi (rate * ((i : ℚ) / sample_rate)) * depth * sample_rate))).toNat 0
           else 0) * wet_level := by
  rw [apply_chorus_getD sin2pi audio sample_rate rate depth wet_level i hi]
  rfl

/-- C6 witness: the amended lookup evaluated on a one-sample buffer. -/
theorem C6_truncated_chorus_lookup_witness :
    0 < ([5] : List ℚ).length ∧
    (apply_chorus sinProbe [5] 1 0 0 0).getD 0 0
      = ([5] : List ℚ).getD 0 0 * (1 - 0)
        + (if max 0 ((0 : ℤ) - pyInt (sinProbe (0 * ((0 : ℚ) / 1)) * 0 * 1))
              < (([5] : List ℚ).length : ℤ)
           then ([5] : List ℚ).getD
             (max 0 ((0 : ℤ) - pyInt (sinProbe (0 * ((0 : ℚ) / 1)) * 0 * 1))).toNat 0
           else 0) * 0 :=
  ⟨by decide, C6_truncated_chorus_lookup sinProbe [5] 1 0 0 0 0 (by decide)⟩

/-- C8 counterexample: the claim's filename rounds the intensity and has
no extension, but the source truncates with `int(...)` and appends
`.wav`: at intensity 62.7 the code produces `song_distortion_62.wav`
while the claim's formula gives `song_distortion_63`. -/
theorem C8_counterexample :
    apply_effect_result "song.wav" "distortion" 62.7 = Except.ok "song_distortion_62.wav" ∧
    splitext_stem "song.wav" ++ "_" ++ "distortion" ++ "_" ++ toString (round (62.7 : ℚ))
      = "song_distortion_63" ∧
    ("song_distortion_62.wav" : String) ≠ "song_distortion_63" := by
  refine ⟨?_, ?_, by decide⟩
  · rw [show apply_effect_result "song.wav" "distortion" 62.7
        = Except.ok (splitext_stem "song.wav" ++ "_" ++ "distortion" ++ "_"
            ++ toString (pyInt (62.7 : ℚ)) ++ ".wav") from rfl,
      show pyInt (62.7 : ℚ) = 62 by norm_num [pyInt]]
    exact congrArg Except.ok (by decide)
  · rw [show round (62.7 : ℚ) = 63 by norm_num [round_eq]]
    decide

/-- C8 (amended): every successful `apply_effect` call names its output
`{stem}_{effectName}_{int(intensity)}.wav` — the stem of the source file
name, the effect name as passed, the intensity truncated toward zero
(Python `int`), and a fixed `.wav` extension — so the name is a
deterministic function of those three inputs. -/
theorem C8_output_name (filename effect_name : String) (intensity : ℚ)
    (h : exceptOk (dispatch effect_name intensity) = true) :
    apply_effect_result filename effect_name intensity
      = Except.ok (splitext_stem filename ++ "_" ++ effect_name ++ "_"
          ++ toString (pyInt intensity) ++ ".wav") := by
  unfold apply_effect_result
  cases hd : dispatch effect_name intensity with
  | ok c => rfl
  | error e =>
    rw [hd] at h
    exact absurd h (by simp [exceptOk])

/-- C8 witness: the amended naming rule evaluated at
`("song.wav", "distortion", 62.7)`. -/
theorem C8_output_name_witness :
    exceptOk (dispatch "distortion" (62.7 : ℚ)) = true ∧
    apply_effect_result "song.wav" "distortion" 62.7 = Except.ok "song_distortion_62.wav" := by
  refine ⟨rfl, ?_⟩
  have h := C8_output_name "song.wav" "distortion" 62.7 rfl
  rw [h, show pyInt (62.7 : ℚ) = 62 by norm_num [pyInt]]
  exact congrArg Except.ok (by decide)

/-- C2: every effect transform called with `wet_level = 0` returns the
input buffer unchanged, because each one ends in the blend
`audio_data * (1 - wet_level) + processed * wet_level`.  For the
equalizer the abstract `filtfilt` primitive is assumed
length-preserving, which the scipy function is. -/
theorem C2_wet_level_zero (audio : List ℚ)
    (sample_rate room_size damping delay decay rate depth gain threshold
      cratio low_gain mid_gain high_gain : ℚ)
    (randn : ℕ → ℚ) (expf tanhf sin2pi : ℚ → ℚ) (filt : ℕ → ℚ → ℚ → List ℚ → List ℚ)
    (hfilt : ∀ b c1 c2 xs, (filt b c1 c2 xs).length = xs.length) :
    apply_reverb randn expf audio sample_rate room_size damping 0 = audio ∧
    apply_echo audio sample_rate delay decay 0 = audio ∧
    apply_chorus sin2pi audio sample_rate rate depth 0 = audio ∧
    apply_distortion tanhf audio gain 0 = audio ∧
    apply_compressor audio threshold cratio 0 = audio ∧
    apply_equalizer filt audio sample_rate low_gain mid_gain high_gain 0 = audio := by
  refine ⟨?_, ?_, ?_, ?_, ?_, ?_⟩
  · simp only [apply_reverb]
    exact mixLists_zero _ _ (by rw [convolve_same_length])
  · simp only [apply_echo]
    exact mixLists_zero _ _ (by
      rw [List.length_take, sliceAdd_length, sliceAssign_length, List.length_replicate]
      omega)
  · simp only [apply_chorus]
    exact mixLists_zero _ _ (by rw [chorus_fill_length])
  · simp only [apply_distortion]
    exact mixLists_zero _ _ (by simp)
  · simp only [apply_compressor, compress_samples]
    exact mixLists_zero _ _ (by simp)
  · simp only [apply_equalizer]
    exact mixLists_zero _ _ (by
      simp [List.length_zipWith, hfilt])

/-- C2 witness: all six identities evaluated on the buffer `[1, 2]` with
unit parameters and identity/zero primitives. -/
theorem C2_wet_level_zero_witness :
    (∀ b : ℕ, ∀ c1 c2 : ℚ, ∀ xs : List ℚ,
        ((fun (_ : ℕ) (_ : ℚ) (_ : ℚ) (ys : List ℚ) => ys) b c1 c2 xs).length = xs.length) ∧
    (apply_reverb (fun _ => 0) (fun _ => 0) [1, 2] 1 1 1 0 = [1, 2] ∧
     apply_echo [1, 2] 1 1 1 0 = [1, 2] ∧
     apply_chorus (fun _ => 0) [1, 2] 1 1 1 0 = [1, 2] ∧
     apply_distortion (fun _ => 0) [1, 2] 1 0 = [1, 2] ∧
     apply_compressor [1, 2] 1 1 0 = [1, 2] ∧
     apply_equalizer (fun _ _ _ ys => ys) [1, 2] 1 1 1 1 0 = [1, 2]) :=
  ⟨fun _ _ _ _ => rfl,
   C2_wet_level_zero [1, 2] 1 1 1 1 1 1 1 1 1 1 1 1 1
     (fun _ => 0) (fun _ => 0) (fun _ => 0) (fun _ => 0)
     (fun _ _ _ ys => ys) (fun _ _ _ _ => rfl)⟩

/-- C10: no effect transform mutates its input buffer.  In the heap
model (input array at address 0 of the one-element initial heap), each
of the six effects leaves the input address holding the original
samples, returns a freshly allocated address, and that fresh array holds
exactly the pure transform's result — in particular the compressor's
masked remapping writes `np.copy(audio_data)`, never the input. -/
theorem C10_no_input_mutation (audio : List ℚ)
    (sample_rate room_size damping delay decay rate depth gain threshold
      cratio low_gain mid_gain high_gain wet_level : ℚ)
    (randn : ℕ → ℚ) (expf tanhf sin2pi : ℚ → ℚ) (filt : ℕ → ℚ → ℚ → List ℚ → List ℚ) :
    (hget (run_reverb randn expf [audio] 0 sample_rate room_size damping wet_level).1 0 = audio
      ∧ (run_reverb randn expf [audio] 0 sample_rate room_size damping wet_level).2 ≠ 0
      ∧ hget (run_reverb randn expf [audio] 0 sample_rate room_size damping wet_level).1
          (run_reverb randn expf [audio] 0 sample_rate room_size damping wet_level).2
          = apply_reverb randn expf audio sample_rate room_size damping wet_level) ∧
    (hget (run_echo [audio] 0 sample_rate delay decay wet_level).1 0 = audio
      ∧ (run_echo [audio] 0 sample_rate delay decay wet_level).2 ≠ 0
      ∧ hget (run_echo [audio] 0 sample_rate delay decay wet_level).1
          (run_echo [audio] 0 sample_rate delay decay wet_level).2
          = apply_echo audio sample_rate delay decay wet_level) ∧
    (hget (run_chorus sin2pi [audio] 0 sample_rate rate depth wet_level).1 0 = audio
      ∧ (run_chorus sin2pi [audio] 0 sample_rate rate depth wet_level).2 ≠ 0
      ∧ hget (run_chorus sin2pi [audio] 0 sample_rate rate depth wet_level).1
          (run_chorus sin2pi [audio] 0 sample_rate rate depth wet_level).2
          = apply_chorus sin2pi audio sample_rate rate depth wet_level) ∧
    (hget (run_distortion tanhf [audio] 0 gain wet_level).1 0 = audio
      ∧ (run_distortion tanhf [audio] 0 gain wet_level).2 ≠ 0
      ∧ hget (run_distortion tanhf [audio] 0 gain wet_level).1
          (run_distortion tanhf [audio] 0 gain wet_level).2
          = apply_distortion tanhf audio gain wet_level) ∧
    (hget (run_compressor [audio] 0 threshold cratio wet_level).1 0 = audio
      ∧ (run_compressor [audio] 0 threshold cratio wet_level).2 ≠ 0
      ∧ hget (run_compressor [audio] 0 threshold cratio wet_level).1
          (run_compressor [audio] 0 threshold cratio wet_level).2
          = apply_compressor audio threshold cratio wet_level) ∧
    (hget (run_equalizer filt [audio] 0 sample_rate low_gain mid_gain high_gain wet_level).1 0
        = audio
      ∧ (run_equalizer filt [audio] 0 sample_rate low_gain mid_gain high_gain wet_level).2 ≠ 0
      ∧ hget (run_equalizer filt [audio] 0 sample_rate low_gain mid_gain high_gain wet_level).1
          (run_equalizer filt [audio] 0 sample_rate low_gain mid_gain high_gain wet_level).2
          = apply_equalizer filt audio sample_rate low_gain mid_gain high_gain wet_level) :=
  ⟨⟨rfl, Nat.succ_ne_zero _, rfl⟩, ⟨rfl, Nat.succ_ne_zero _, rfl⟩,
   ⟨rfl, Nat.succ_ne_zero _, rfl⟩, ⟨rfl, Nat.succ_ne_zero _, rfl⟩,
   ⟨rfl, Nat.succ_ne_zero _, rfl⟩, ⟨rfl, Nat.succ_ne_zero _, rfl⟩⟩
